import Mathlib

/-!
Verification of the laser spot analyzer core pipeline.

Shallow embedding of the repository's core modules:
`core/filtering.py`, `core/detection.py`, `core/preprocessing.py`,
`core/statistics.py`, `core/threshold_optimizer.py`.

Modelling conventions:
- Python floats are modelled as exact rationals (ℚ); the one genuinely
  irrational operation, the square root used for the geometric-mean
  diameter and the standard deviation, is modelled as an abstract
  function parameter for the computable pipeline and as `Real.sqrt`
  in the statistics engine.
- OpenCV library calls (`findContours`, `fitEllipse`,
  `minEnclosingCircle`, CLAHE, black-hat, median blur, `t.interval`)
  are opaque third-party code: they enter the model as function
  parameters, so every theorem quantifies over their behaviour.
  The morphology (`getStructuringElement`, `morphologyEx` closing,
  `threshold`) is modelled concretely since claims depend on it.
- Grayscale images are lists of rows of natural-number samples.
-/

namespace SpotAnalyzer

/-- A detected blob, as built by `detect_blobs` in `core/detection.py`:
a dict with keys `center`, `diam_px` and `ellipse` (the ellipse is
`((x, y), (MA, ma), angle)` when a full fit was done, else `None`). -/
structure Blob where
  center : ℚ × ℚ
  diam_px : ℚ
  ellipse : Option ((ℚ × ℚ) × (ℚ × ℚ) × ℚ)
deriving DecidableEq

/-- The descending-by-diameter relation used by the blob sort:
`sorted(blobs, key=lambda b: b["diam_px"], reverse=True)` orders `a`
before `b` exactly when `b.diam_px ≤ a.diam_px`, keeping the original
order of equal diameters (Python's sort is stable). -/
def blobGe (a b : Blob) : Prop := b.diam_px ≤ a.diam_px

instance : DecidableRel blobGe := fun a b =>
  inferInstanceAs (Decidable (b.diam_px ≤ a.diam_px))

instance : IsTotal Blob blobGe := ⟨fun a b => le_total b.diam_px a.diam_px⟩

instance : IsTrans Blob blobGe := ⟨fun _ _ _ hab hbc => le_trans hbc hab⟩

/-- Function `filter_blobs` of `core/filtering.py`: stable-sort the blobs by `diam_px` descending
and keep the first `max_blobs` of them. -/
def filter_blobs (blobs : List Blob) (max_blobs : ℕ) : List Blob :=
  (List.insertionSort blobGe blobs).take max_blobs

-- sanity checks on concrete data
/-- A sample blob of diameter 10. -/
def bA : Blob := ⟨(0, 0), 10, none⟩

/-- A sample blob of diameter 7. -/
def bB : Blob := ⟨(1, 1), 7, none⟩

/-- A second sample blob of diameter 10, distinguishable from `bA`. -/
def bC : Blob := ⟨(2, 2), 10, none⟩

/-! ## Detection (`core/detection.py`) -/

/-- An 8-bit grayscale image: a list of rows of samples. -/
abbrev Img := List (List ℕ)

/-- Read pixel `(i, j)` of an image, `none` outside the bounds. -/
def getPx (img : Img) (i j : ℤ) : Option ℕ :=
  if i < 0 ∨ j < 0 then none
  else (img.get? i.toNat).bind fun row => row.get? j.toNat

/-- The hit set of `cv2.getStructuringElement(cv2.MORPH_ELLIPSE, (3, 3))`:
for size 3×3 the inscribed ellipse is the cross
`[[0,1,0],[1,1,1],[0,1,0]]`, given here as offsets from the anchor. -/
def crossOffsets : List (ℤ × ℤ) := [(0, 0), (0, 1), (0, -1), (1, 0), (-1, 0)]

/-- The in-bounds neighbour samples under the cross kernel at `(i, j)`. -/
def neighVals (img : Img) (i j : ℤ) : List ℕ :=
  crossOffsets.filterMap fun o => getPx img (i + o.1) (j + o.2)

/-- Dilation, `cv2.dilate` with the cross kernel: pixelwise maximum over the
kernel window; the default border value for dilation is `-inf`, so
out-of-bounds neighbours are simply dropped (base value 0). -/
def dilate (img : Img) : Img :=
  img.enum.map fun r => r.2.enum.map fun c =>
    (neighVals img r.1 c.1).foldr max 0

/-- Erosion, `cv2.erode` with the cross kernel: pixelwise minimum; the default
border value for erosion is `+inf`, so out-of-bounds neighbours are
dropped (base value 255, the type maximum). -/
def erode (img : Img) : Img :=
  img.enum.map fun r => r.2.enum.map fun c =>
    (neighVals img r.1 c.1).foldr min 255

/-- One morphological closing, `cv2.morphologyEx(img, cv2.MORPH_CLOSE,
kernel)`: dilation followed by erosion. -/
def closing (img : Img) : Img := erode (dilate img)

/-- Closing with `iterations = n` as OpenCV defines it: `n` dilations
followed by `n` erosions. -/
def closingIter (n : ℕ) (img : Img) : Img := erode^[n] (dilate^[n] img)

/-- Binarization, `cv2.threshold(morph, t, 255, cv2.THRESH_BINARY)`: strictly greater
than `t` maps to 255, everything else to 0. -/
def threshBin (t : ℕ) (img : Img) : Img :=
  img.map (List.map fun v => if t < v then 255 else 0)

/-- The detection parameters consumed by `detect_blobs` (the relevant
subset of `DETECTION_DEFAULTS` plus overrides). -/
structure DetectParams where
  threshold : ℕ
  morph_iter : ℕ
  min_diam : ℚ
  max_diam : ℚ
deriving DecidableEq

/-- A contour as returned by `cv2.findContours`, recording the opaque
geometric measurements the detector reads off it: its point count, its
`cv2.contourArea`, and the results of the two geometry fits
(`cv2.fitEllipse` giving center, axes `(MA, ma)` and angle;
`cv2.minEnclosingCircle` giving a radius). -/
structure Contour where
  numPoints : ℕ
  area : ℚ
  center : ℚ × ℚ
  axes : ℚ × ℚ
  angle : ℚ
  radius : ℚ
deriving DecidableEq

/-- Constant from `core/detection.py` line 4: contours below this area are noise. -/
def MIN_CONTOUR_AREA : ℚ := 20

/-- The derived diameter of a contour: `d = (MA * ma) ** 0.5` when the
contour has at least 5 points (geometric mean of the fitted ellipse
axes), else `d = 2 * r` from the minimum enclosing circle.  `sqrtFn`
stands for the float square root, an opaque library operation. -/
def contourDiam (sqrtFn : ℚ → ℚ) (c : Contour) : ℚ :=
  if 5 ≤ c.numPoints then sqrtFn (c.axes.1 * c.axes.2) else 2 * c.radius

/-- The mask handed to `cv2.findContours` by `detect_blobs`.  The code
calls `cv2.morphologyEx(img, cv2.MORPH_CLOSE, kernel, params["morph_iter"])`:
the fourth positional argument of `morphologyEx` is `dst`, not
`iterations`, so the closing always runs with the default
`iterations = 1` and `morph_iter` is discarded. -/
def detectMask (img : Img) (p : DetectParams) : Img :=
  threshBin p.threshold (closing img)

/-- Modelled from the spec: the mask the specification describes,
"morphologically closes the image (elliptical 3×3 structuring element,
`morph_iter` iterations)" and then binarizes at `threshold`.  This is
what the call intended (`iterations = morph_iter`); the code of
`detect_blobs` computes `detectMask` instead. -/
def specMask (img : Img) (p : DetectParams) : Img :=
  threshBin p.threshold (closingIter p.morph_iter img)

/-- Function `detect_blobs` of `core/detection.py`.  Here `contoursOf` stands for
`cv2.findContours(mask, cv2.RETR_EXTERNAL, cv2.CHAIN_APPROX_SIMPLE)`,
an opaque library call on the binary mask.  Contours with area below
`MIN_CONTOUR_AREA` are skipped; for the rest the derived diameter is
bound-checked inclusively and the blob dict is built. -/
def detect_blobs (contoursOf : Img → List Contour) (sqrtFn : ℚ → ℚ)
    (img : Img) (p : DetectParams) : List Blob :=
  (contoursOf (detectMask img p)).filterMap fun c =>
    if c.area < MIN_CONTOUR_AREA then none
    else
      let d := contourDiam sqrtFn c
      if p.min_diam ≤ d ∧ d ≤ p.max_diam then
        some { center := c.center, diam_px := d,
               ellipse := if 5 ≤ c.numPoints
                          then some (c.center, c.axes, c.angle) else none }
      else none

/-- Two bright pixels three apart: one closing cannot bridge the gap,
two closings can. -/
def gapImg : Img := [[0, 255, 0, 0, 0, 255, 0]]

/-! ## Preprocessing (`core/preprocessing.py`) -/

/-- A raw input image: float samples, arbitrary range.  The caller may
also pass `None`; that case is modelled with `Option` at the call. -/
abbrev RawImg := List (List ℚ)

/-- The preprocessing fields of a material preset (`config.py`). -/
structure Preset where
  clahe_clip : ℚ
  tophat_kernel : ℕ
  median_kernel : ℕ
  invert : Bool

/-- Clipping, `np.clip(q, lo, hi)` on a scalar. -/
def npClip (lo hi q : ℚ) : ℚ := max lo (min q hi)

/-- Conversion `float → np.uint8` (`astype(np.uint8)`): a C-style cast,
truncation toward minus infinity composed with wraparound mod 256.
Every value the claims touch is already in `[0, 255]`, where this is
just the floor. -/
def toU8 (q : ℚ) : ℕ := (Int.floor q % 256).toNat

/-- Size `img.size` of a 2-D array: the total number of samples. -/
def rawSize (raw : RawImg) : ℕ := (raw.map List.length).sum

/-- Maximum `img.max()` over the samples.  Only evaluated on images of
positive size (numpy raises on an empty array; the code guards first). -/
def rawMax (raw : RawImg) : ℚ :=
  match raw.flatten with
  | [] => 0
  | x :: xs => xs.foldl max x

/-- The fallback normalization `np.clip(img * 255, 0, 255).astype(np.uint8)`
taken when `img.max() ≤ 0`. -/
def clipNormalize (raw : RawImg) : Img :=
  raw.map (List.map fun x => toU8 (npClip 0 255 (x * 255)))

/-- The main normalization `(img / img_max * 255).astype(np.uint8)`. -/
def divNormalize (imgMax : ℚ) (raw : RawImg) : Img :=
  raw.map (List.map fun x => toU8 (x / imgMax * 255))

/-- Complement `cv2.bitwise_not` on an 8-bit image: `255 - v` per sample. -/
def invertImg (img : Img) : Img := img.map (List.map fun v => 255 - v)

/-- Function `preprocess` of `core/preprocessing.py`.  The CLAHE equalization,
black-hat transform and median blur are opaque OpenCV calls, passed in
as `clahe`, `blackhat` and `medianBlur`; the validity check, the
normalization and the inversion are modelled concretely.  A raised
`ValueError` is an `Except.error`. -/
def preprocess (clahe : ℚ → Img → Img) (blackhat : ℕ → Img → Img)
    (medianBlur : ℕ → Img → Img) (img : Option RawImg) (preset : Preset) :
    Except String Img :=
  match img with
  | none => .error "Invalid image: empty or None"
  | some raw =>
    if rawSize raw = 0 then .error "Invalid image: empty or None"
    else
      let imgMax := rawMax raw
      let img8 := if imgMax ≤ 0 then clipNormalize raw
                  else divNormalize imgMax raw
      let img8 := if preset.invert then invertImg img8 else img8
      .ok (medianBlur preset.median_kernel
            (blackhat preset.tophat_kernel (clahe preset.clahe_clip img8)))

/-! ## Statistics (`core/statistics.py`) -/

/-- Mean `np.mean` of a float sequence: sum over length (as exact rationals;
on the empty list numpy yields NaN where this model yields `0/0 = 0` —
no claim depends on that value, only on which branch runs). -/
def npMean (l : List ℚ) : ℚ := l.sum / l.length

/-- The population variance, the square of `np.std` (numpy's default
`ddof = 0`): mean of the squared deviations from the mean. -/
def npVar (l : List ℚ) : ℚ := ((l.map fun x => (x - npMean l) ^ 2).sum) / l.length

/-- The result tuple of `compute_stats`: `(mean, std, cv, ci)`. -/
structure StatsResult where
  mean : ℚ
  std : ℝ
  cv : ℝ
  ci : ℚ × ℚ

/-- Function `compute_stats(diams_um)` of `core/statistics.py`.  Here `tInt` stands
for the opaque scipy call `stats.t.interval(0.95, n-1, loc=mean,
scale=sem(diams_um))`, a function of the sample list. -/
noncomputable def compute_stats (tInt : List ℚ → ℚ × ℚ) (diams_um : List ℚ) :
    StatsResult where
  mean := npMean diams_um
  std := Real.sqrt (npVar diams_um)
  cv := if 0 < npMean diams_um
        then Real.sqrt (npVar diams_um) / (npMean diams_um : ℝ) * 100 else 0
  ci := if 1 < diams_um.length then tInt diams_um
        else (npMean diams_um, npMean diams_um)

/-- The summary dict returned by `compute_statistics`. -/
structure StatsSummary where
  mean : ℚ
  std : ℝ
  cv : ℝ
  count : ℕ

/-- The default `pixel_size_um = 0.34` of `compute_statistics`. -/
def PIXEL_SIZE_UM_DEFAULT : ℚ := 34 / 100

/-- Function `compute_statistics(blobs, pixel_size_um)` of `core/statistics.py`:
all-zero summary on an empty blob list, otherwise converts the pixel
diameters to micrometers and delegates to `compute_stats`. -/
noncomputable def compute_statistics (tInt : List ℚ → ℚ × ℚ)
    (pixel_size_um : ℚ) (blobs : List Blob) : StatsSummary :=
  if blobs.isEmpty then ⟨0, 0, 0, 0⟩
  else
    let diams_um := blobs.map fun b => b.diam_px * pixel_size_um
    let r := compute_stats tInt diams_um
    ⟨r.mean, r.std, r.cv, blobs.length⟩

/-- An opaque stand-in for the scipy confidence-interval call, used by
the concrete statistics examples. -/
def tIntZero : List ℚ → ℚ × ℚ := fun _ => (0, 0)

/-! ## Threshold optimizer (`core/threshold_optimizer.py`)

Within one call of `optimize_threshold` the image and every parameter
except the probed threshold are fixed, so the inner pipeline
`preprocess → detect_blobs` is a pure function of the midpoint
threshold; it enters the model as `detectAt : ℤ → List Blob` (the
blob list before the `filter_blobs` truncation, which is modelled
explicitly).  Thresholds are integers exactly as in Python. -/

/-- Distance `abs(count - target)` of an iteration's count to the target. -/
def distTo (count target : ℕ) : ℕ := ((count : ℤ) - target).natAbs

/-- One line of the optimizer's `history`:
`{'threshold': ..., 'count': ..., 'distance': ...}`. -/
structure HistEntry where
  threshold : ℤ
  count : ℕ
  distance : ℕ
deriving DecidableEq

/-- The loop state of `optimize_threshold`: the best-seen candidate,
the history so far and the current binary-search bounds. -/
structure OptState where
  best_threshold : ℤ
  best_count : ℕ
  best_blobs : List Blob
  history : List HistEntry
  min_threshold : ℤ
  max_threshold : ℤ
deriving DecidableEq

/-- The result dict of `optimize_threshold`. -/
structure OptResult where
  threshold : ℤ
  blob_count : ℕ
  blobs : List Blob
  history : List HistEntry
  exact_match : Bool
deriving DecidableEq

/-- The midpoint threshold `(min_threshold + max_threshold) // 2`
(both bounds stay positive, so integer division is the Python floor). -/
def midOf (s : OptState) : ℤ := (s.min_threshold + s.max_threshold) / 2

/-- One iteration of the optimizer's `while` loop: probe the midpoint
with the `preprocess → detect_blobs → filter_blobs` pipeline, append
the `{threshold, count, distance}` record to the history, replace the
best-seen candidate when this iteration's distance is strictly smaller,
then either stop (`true`) on an exact hit (`blob_count == target`) or
on inverted bounds (`min_threshold > max_threshold`), or continue
(`false`) with the narrowed bounds. -/
def optStep (detectAt : ℤ → List Blob) (max_blobs target : ℕ)
    (s : OptState) : OptState × Bool :=
  let mid := midOf s
  let blobs := filter_blobs (detectAt mid) max_blobs
  let cnt := blobs.length
  let hist := s.history ++ [⟨mid, cnt, distTo cnt target⟩]
  let bt := if distTo cnt target < distTo s.best_count target
            then mid else s.best_threshold
  let bc := if distTo cnt target < distTo s.best_count target
            then cnt else s.best_count
  let bb := if distTo cnt target < distTo s.best_count target
            then blobs else s.best_blobs
  if cnt = target then
    (⟨bt, bc, bb, hist, s.min_threshold, s.max_threshold⟩, true)
  else if cnt < target then
    (⟨bt, bc, bb, hist, s.min_threshold, mid - 1⟩,
     decide (mid - 1 < s.min_threshold))
  else
    (⟨bt, bc, bb, hist, mid + 1, s.max_threshold⟩,
     decide (s.max_threshold < mid + 1))

/-- The optimizer loop, `while iterations < max_iterations`, with the
remaining iteration budget as fuel. -/
def optLoop (detectAt : ℤ → List Blob) (max_blobs target : ℕ) :
    ℕ → OptState → OptState
  | 0, s => s
  | fuel + 1, s =>
    let r := optStep detectAt max_blobs target s
    if r.2 then r.1 else optLoop detectAt max_blobs target fuel r.1

/-- Budget `max_iterations = 12` (`core/threshold_optimizer.py` line 52). -/
def MAX_ITERATIONS : ℕ := 12

/-- The initial loop state: `best_threshold = 128`, `best_count = 0`,
`best_blobs = []`, empty history, bounds `[1, 255]`. -/
def optInit : OptState := ⟨128, 0, [], [], 1, 255⟩

/-- The state of the search once the `while` loop has finished. -/
def finalState (detectAt : ℤ → List Blob) (max_blobs target : ℕ) :
    OptState :=
  optLoop detectAt max_blobs target MAX_ITERATIONS optInit

/-- Function `optimize_threshold` of `core/threshold_optimizer.py`: run the
bounded search and package the best-seen candidate, the history and
`exact_match = (best_count == target_count)`. -/
def optimize_threshold (detectAt : ℤ → List Blob) (max_blobs target : ℕ) :
    OptResult :=
  let s := finalState detectAt max_blobs target
  ⟨s.best_threshold, s.best_count, s.best_blobs, s.history,
   s.best_count == target⟩

/-- The count recorded by the last history entry whose threshold equals
the returned threshold, the quantity claim C1 speaks about. -/
def lastMatchingCount (r : OptResult) : Option ℕ :=
  ((r.history.filter fun e => e.threshold == r.threshold).map
    HistEntry.count).getLast?

/-- A pipeline that always reports the same three blobs. -/
def threeBlobDetect : ℤ → List Blob := fun _ => [bA, bA, bA]

/-- A pipeline that always reports exactly one blob. -/
def oneBlobDetect : ℤ → List Blob := fun _ => [bA]

/-! ## Concrete instances used by witnesses and counterexamples -/

/-- The detection parameters used in the concrete examples:
`DETECTION_DEFAULTS` with `morph_iter = 2` (its default value). -/
def exParams : DetectParams := ⟨120, 2, 5, 200⟩

/-- A concrete contour: 6 boundary points, area 25, ellipse axes 4 and
9, so the geometric-mean diameter is `sqrt 36 = 6`. -/
def c4Contour : Contour := ⟨6, 25, (1, 2), (4, 9), 0, 3⟩

/-- A contour oracle that always reports `c4Contour`. -/
def c4Contours : Img → List Contour := fun _ => [c4Contour]

/-- The float square root at the one point the example evaluates it. -/
def c4Sqrt : ℚ → ℚ := fun _ => 6

/-- The blob `detect_blobs` builds from `c4Contour`. -/
def c4Blob : Blob := ⟨(1, 2), 6, some ((1, 2), (4, 9), 0)⟩

/-- An all-zero 2×2 image. -/
def zeroImg : RawImg := [[0, 0], [0, 0]]

/-- The identity stand-in for the opaque CLAHE stage. -/
def idClahe : ℚ → Img → Img := fun _ i => i

/-- Identity stand-in for the black-hat and median-blur stages. -/
def idStage : ℕ → Img → Img := fun _ i => i

/-- The glass preset of `config.py`. -/
def glassPreset : Preset := ⟨2, 15, 3, false⟩

/-! ## Search invariants of the optimizer loop

`OptInv` collects the facts the loop maintains about the best-seen
candidate and the history; `Outside` says every already-probed
threshold lies outside the current search interval (which is how the
binary search guarantees it never probes a threshold twice). -/

/-- Thresholds already recorded lie strictly outside the current
search bounds. -/
def Outside (s : OptState) : Prop :=
  ∀ e ∈ s.history, e.threshold < s.min_threshold ∨
    s.max_threshold < e.threshold

/-- The loop invariant of `optimize_threshold` relating the best-seen
candidate to the history.  The best candidate is either still the
initial `(128, 0, [])` — in which case no recorded iteration came
strictly closer to the target than the initial distance — or it is the
first recorded iteration achieving the minimal distance seen. -/
structure OptInv (detectAt : ℤ → List Blob) (max_blobs target : ℕ)
    (s : OptState) : Prop where
  nodup : (s.history.map HistEntry.threshold).Nodup
  bestLe : ∀ e ∈ s.history, distTo s.best_count target ≤ e.distance
  bestInit : distTo s.best_count target ≤ target
  lenOk : s.best_count = s.best_blobs.length
  lenLe : s.best_blobs.length ≤ max_blobs
  best : (s.best_threshold = 128 ∧ s.best_count = 0 ∧ s.best_blobs = [] ∧
           ∀ e ∈ s.history, target ≤ e.distance)
       ∨ (∃ l1 e l2, s.history = l1 ++ e :: l2 ∧
           e.threshold = s.best_threshold ∧ e.count = s.best_count ∧
           e.distance = distTo s.best_count target ∧
           (∀ e' ∈ l1, distTo s.best_count target < e'.distance) ∧
           s.best_blobs = filter_blobs (detectAt s.best_threshold) max_blobs)

/-! ## Sanity examples on concrete data -/

example : filter_blobs [bB, bA, bC] 2 = [bA, bC] := by decide
example : filter_blobs [bB, bA, bC] 0 = [] := by decide
example : filter_blobs [] 5 = [] := by decide

example : closing gapImg = [[255, 255, 0, 0, 0, 255, 255]] := by decide
example : closingIter 2 gapImg = [[255, 255, 255, 255, 255, 255, 255]] := by
  decide

example :
    (optimize_threshold threeBlobDetect 8 1).history.map HistEntry.threshold
      = [128, 192, 224, 240, 248, 252, 254, 255] := by decide

example : (optimize_threshold threeBlobDetect 8 1).blob_count = 0 := by decide

example : (optimize_threshold oneBlobDetect 8 1).history = [⟨128, 1, 0⟩] := by
  decide

/-! ## Claims about `filter_blobs` -/

/-- Inserting a blob into a list commutes with filtering for a fixed
diameter `d`: since the insertion only passes over strictly larger
diameters, it never passes over another blob of diameter `d`. -/
lemma filter_orderedInsert (d : ℚ) (a : Blob) (l : List Blob) :
    (List.orderedInsert blobGe a l).filter (fun b => decide (b.diam_px = d)) =
      if a.diam_px = d
      then a :: l.filter (fun b => decide (b.diam_px = d))
      else l.filter (fun b => decide (b.diam_px = d)) := by
  induction l with
  | nil =>
    by_cases h : a.diam_px = d <;> simp [List.orderedInsert, h]
  | cons b l ih =>
    by_cases hab : blobGe a b
    · by_cases h : a.diam_px = d <;>
        simp [List.orderedInsert, hab, List.filter_cons, h]
    · have hlt : a.diam_px < b.diam_px := lt_of_not_le hab
      by_cases h : a.diam_px = d
      · have hbne : ¬ b.diam_px = d := fun hbd =>
          absurd (hbd.trans h.symm).symm (ne_of_lt hlt)
        simp [List.orderedInsert, hab, List.filter_cons, h, hbne, ih]
      · simp [List.orderedInsert, hab, List.filter_cons, h, ih]

/-- Stability of the blob sort: for each fixed diameter `d`, the sorted
list restricted to diameter `d` is the input list restricted to `d`. -/
lemma filter_insertionSort (d : ℚ) (l : List Blob) :
    (List.insertionSort blobGe l).filter (fun b => decide (b.diam_px = d)) =
      l.filter (fun b => decide (b.diam_px = d)) := by
  induction l with
  | nil => rfl
  | cons a l ih =>
    by_cases h : a.diam_px = d <;>
      simp [List.insertionSort, filter_orderedInsert, h, ih, List.filter_cons]

/-- Claim C5: `filter_blobs` returns `min k (len input)` blobs, sorted
non-increasingly by `diam_px`, with the relative order of equal
diameters preserved (the output's restriction to each diameter is a
prefix of the input's restriction); empty input or `max_blobs = 0`
yield the empty list. -/
theorem filter_blobs_spec (blobs : List Blob) (k : ℕ) :
    (filter_blobs blobs k).length = min k blobs.length ∧
    List.Sorted blobGe (filter_blobs blobs k) ∧
    (∀ d : ℚ, ∃ rest,
      blobs.filter (fun b => decide (b.diam_px = d)) =
        (filter_blobs blobs k).filter (fun b => decide (b.diam_px = d))
          ++ rest) ∧
    filter_blobs blobs 0 = [] ∧
    filter_blobs ([] : List Blob) k = [] := by
  refine ⟨?_, ?_, ?_, ?_, ?_⟩
  · rw [filter_blobs, List.length_take, List.length_insertionSort]
  · exact List.Pairwise.sublist (List.take_sublist _ _)
      (List.sorted_insertionSort blobGe blobs)
  · intro d
    refine ⟨(List.drop k (List.insertionSort blobGe blobs)).filter
      (fun b => decide (b.diam_px = d)), ?_⟩
    rw [filter_blobs, ← List.filter_append, List.take_append_drop,
      filter_insertionSort]
  · rfl
  · simp [filter_blobs]

/-! ## Claims about `detect_blobs` -/

/-- Claim C2 (code bug): `detect_blobs` was meant to close the image
`morph_iter` times, but passes `morph_iter` positionally into the `dst`
slot of `cv2.morphologyEx`, so the mask it feeds to contour extraction
is always the 1-fold closing.  On the two-dot image `gapImg` with
`morph_iter = 2` the code's mask differs from the spec's 2-fold
closing: the single closing leaves the 3-pixel gap open, the double
closing bridges it. -/
theorem detect_mask_ignores_morph_iter :
    detectMask gapImg exParams = threshBin exParams.threshold
      (closingIter 1 gapImg) ∧
    detectMask gapImg exParams ≠ specMask gapImg exParams := by
  decide

/-- Claim C4: every blob returned by `detect_blobs` has
`min_diam ≤ diam_px ≤ max_diam` with both bounds inclusive, and its
diameter is `contourDiam` of a contour of the mask that passed the
area floor — the geometric mean of the fitted ellipse axes when the
contour has at least 5 points, twice the enclosing-circle radius
otherwise. -/
theorem detect_blobs_diam_bounds (contoursOf : Img → List Contour)
    (sqrtFn : ℚ → ℚ) (img : Img) (p : DetectParams) (b : Blob)
    (hb : b ∈ detect_blobs contoursOf sqrtFn img p) :
    (p.min_diam ≤ b.diam_px ∧ b.diam_px ≤ p.max_diam) ∧
    ∃ c ∈ contoursOf (detectMask img p),
      MIN_CONTOUR_AREA ≤ c.area ∧ b.diam_px = contourDiam sqrtFn c := by
  rw [detect_blobs, List.mem_filterMap] at hb
  obtain ⟨c, hc, hcb⟩ := hb
  by_cases harea : c.area < MIN_CONTOUR_AREA
  · simp [harea] at hcb
  · by_cases hd : p.min_diam ≤ contourDiam sqrtFn c ∧
      contourDiam sqrtFn c ≤ p.max_diam
    · simp only [if_neg harea, if_pos hd, Option.some.injEq] at hcb
      refine ⟨?_, c, hc, le_of_not_lt harea, ?_⟩
      · rw [← hcb]
        exact hd
      · rw [← hcb]
    · simp [harea, hd] at hcb

/-- Witness for claim C4 at a concrete detector run. -/
theorem detect_blobs_diam_bounds_witness :
    (exParams.min_diam ≤ c4Blob.diam_px ∧
      c4Blob.diam_px ≤ exParams.max_diam) ∧
    ∃ c ∈ c4Contours (detectMask gapImg exParams),
      MIN_CONTOUR_AREA ≤ c.area ∧ c4Blob.diam_px = contourDiam c4Sqrt c :=
  detect_blobs_diam_bounds c4Contours c4Sqrt gapImg exParams c4Blob (by decide)

/-! ## Claims about `preprocess` -/

/-- Claim C7: `preprocess` fails with the invalid-image error on a
`None` image and on an image with zero elements; and on any image whose
maximum sample is `≤ 0` it takes the fallback path that clips
`image * 255` into `[0, 255]` (so no division by the maximum is
performed), then proceeds with inversion and the opaque enhancement
stages as usual. -/
theorem preprocess_invalid_and_fallback (clahe : ℚ → Img → Img)
    (blackhat medianBlur : ℕ → Img → Img) (preset : Preset)
    (raw raw0 : RawImg) (h0 : rawSize raw0 = 0) (hne : rawSize raw ≠ 0)
    (hmax : rawMax raw ≤ 0) :
    preprocess clahe blackhat medianBlur none preset
      = .error "Invalid image: empty or None" ∧
    preprocess clahe blackhat medianBlur (some raw0) preset
      = .error "Invalid image: empty or None" ∧
    preprocess clahe blackhat medianBlur (some raw) preset
      = .ok (medianBlur preset.median_kernel (blackhat preset.tophat_kernel
          (clahe preset.clahe_clip
            (if preset.invert then invertImg (clipNormalize raw)
             else clipNormalize raw)))) := by
  refine ⟨rfl, ?_, ?_⟩
  · simp [preprocess, h0]
  · simp [preprocess, hne, hmax]

/-- Witness for claim C7: the all-zero image takes the clipping
fallback and an empty image errors out. -/
theorem preprocess_invalid_and_fallback_witness :
    preprocess idClahe idStage idStage none glassPreset
      = .error "Invalid image: empty or None" ∧
    preprocess idClahe idStage idStage (some ([] : RawImg)) glassPreset
      = .error "Invalid image: empty or None" ∧
    preprocess idClahe idStage idStage (some zeroImg) glassPreset
      = .ok (idStage glassPreset.median_kernel (idStage glassPreset.tophat_kernel
          (idClahe glassPreset.clahe_clip
            (if glassPreset.invert then invertImg (clipNormalize zeroImg)
             else clipNormalize zeroImg)))) :=
  preprocess_invalid_and_fallback idClahe idStage idStage glassPreset
    zeroImg [] (by decide) (by decide) (by decide)

/-! ## Claims about the statistics engine -/

/-- Claim C6: degenerate sample counts never raise.  `compute_stats` on
a single value `d` gives `mean = d`, `std = 0`, `cv = 0` and the point
interval `(d, d)`; with at most one sample the confidence interval is
always the point `(mean, mean)` (the scipy branch is not taken); and
`compute_statistics` on an empty blob list returns the all-zero summary
with `count = 0` without computing any statistic. -/
theorem stats_degenerate (tInt : List ℚ → ℚ × ℚ) (d : ℚ) (l : List ℚ)
    (hl : l.length ≤ 1) (ps : ℚ) :
    compute_stats tInt [d] = ⟨d, 0, 0, (d, d)⟩ ∧
    (compute_stats tInt l).ci = (npMean l, npMean l) ∧
    compute_statistics tInt ps [] = ⟨0, 0, 0, 0⟩ := by
  refine ⟨?_, ?_, ?_⟩
  · have hmean : npMean [d] = d := by simp [npMean]
    have hvar : npVar [d] = 0 := by simp [npVar, hmean]
    rw [compute_stats]
    simp [hmean, hvar]
  · have h1 : ¬ 1 < l.length := by omega
    rw [compute_stats]
    simp [h1]
  · rfl

/-- Witness for claim C6 at concrete samples. -/
theorem stats_degenerate_witness :
    compute_stats (fun _ => ((0 : ℚ), (0 : ℚ))) [(3 : ℚ)] = ⟨3, 0, 0, (3, 3)⟩ ∧
    (compute_stats (fun _ => ((0 : ℚ), (0 : ℚ))) [(5 : ℚ)]).ci
      = (npMean [(5 : ℚ)], npMean [(5 : ℚ)]) ∧
    compute_statistics (fun _ => ((0 : ℚ), (0 : ℚ))) 1 [] = ⟨0, 0, 0, 0⟩ :=
  stats_degenerate (fun _ => ((0 : ℚ), (0 : ℚ))) 3 [5] (by decide) 1

/-- Scaling every sample by `s` scales the sum by `s`. -/
lemma sum_map_mul (s : ℚ) (l : List ℚ) :
    (l.map fun x => x * s).sum = l.sum * s := by
  induction l with
  | nil => simp
  | cons a l ih =>
    simp only [List.map_cons, List.sum_cons, ih]
    ring

/-- Scaling every sample by `s` scales the mean by `s`. -/
lemma npMean_map_mul (s : ℚ) (l : List ℚ) :
    npMean (l.map fun x => x * s) = s * npMean l := by
  rw [npMean, npMean, sum_map_mul, List.length_map]
  ring

/-- Scaling every sample by `s` scales the sum of squared deviations
from the scaled center by `s²`. -/
lemma sum_sq_dev_map_mul (s m : ℚ) (l : List ℚ) :
    (((l.map fun x => x * s).map fun x => (x - s * m) ^ 2).sum)
      = s ^ 2 * ((l.map fun x => (x - m) ^ 2).sum) := by
  rw [List.map_map]
  induction l with
  | nil => simp
  | cons a l ih =>
    simp only [List.map_cons, List.sum_cons, Function.comp, ih]
    ring

/-- Scaling every sample by `s` scales the population variance by `s²`. -/
lemma npVar_map_mul (s : ℚ) (l : List ℚ) :
    npVar (l.map fun x => x * s) = s ^ 2 * npVar l := by
  rw [npVar, npVar, npMean_map_mul, sum_sq_dev_map_mul, List.length_map,
    mul_div_assoc]

/-- The micrometer diameters at pixel size `s * ps` are the diameters at
pixel size `ps`, each scaled by `s`. -/
lemma diams_scale (blobs : List Blob) (ps s : ℚ) :
    (blobs.map fun b => b.diam_px * (s * ps))
      = (blobs.map fun b => b.diam_px * ps).map fun x => x * s := by
  rw [List.map_map]
  refine List.map_congr_left fun b _ => ?_
  simp [Function.comp]
  ring

/-- Claim C10: `compute_statistics` multiplies the pixel diameters by
`pixel_size_um` before computing statistics, so for a non-empty blob
list and a scale factor `s > 0` applied to the pixel size, `mean` and
`std` scale linearly in `s` while `cv` and `count` are unchanged. -/
theorem compute_statistics_scaling (tInt : List ℚ → ℚ × ℚ)
    (blobs : List Blob) (ps s : ℚ) (hb : blobs ≠ []) (hs : 0 < s) :
    (compute_statistics tInt (s * ps) blobs).mean
      = s * (compute_statistics tInt ps blobs).mean ∧
    (compute_statistics tInt (s * ps) blobs).std
      = (s : ℝ) * (compute_statistics tInt ps blobs).std ∧
    (compute_statistics tInt (s * ps) blobs).cv
      = (compute_statistics tInt ps blobs).cv ∧
    (compute_statistics tInt (s * ps) blobs).count
      = (compute_statistics tInt ps blobs).count := by
  have hbe : blobs.isEmpty = false := by
    rcases blobs with _ | ⟨a, l⟩
    · exact absurd rfl hb
    · rfl
  set l := blobs.map fun b => b.diam_px * ps with hldef
  have hmap : (blobs.map fun b => b.diam_px * (s * ps))
      = l.map fun x => x * s := diams_scale blobs ps s
  have hmean : npMean (l.map fun x => x * s) = s * npMean l :=
    npMean_map_mul s l
  have hstd : Real.sqrt ((npVar (l.map fun x => x * s) : ℚ) : ℝ)
      = (s : ℝ) * Real.sqrt ((npVar l : ℚ) : ℝ) := by
    rw [npVar_map_mul]
    push_cast
    rw [Real.sqrt_mul (by positivity) _, Real.sqrt_sq (by positivity)]
  refine ⟨?_, ?_, ?_, ?_⟩
  · simp only [compute_statistics, hbe, Bool.false_eq_true, if_false,
      compute_stats, hmap, hmean]
  · simp only [compute_statistics, hbe, Bool.false_eq_true, if_false,
      compute_stats, hmap, hstd]
  · simp only [compute_statistics, hbe, Bool.false_eq_true, if_false,
      compute_stats, hmap, hmean, hstd]
    by_cases hm : 0 < npMean l
    · have hsm : 0 < s * npMean l := mul_pos hs hm
      rw [if_pos hsm, if_pos hm]
      have hs0 : ((s : ℚ) : ℝ) ≠ 0 := by positivity
      have hm0 : ((npMean l : ℚ) : ℝ) ≠ 0 := by
        exact_mod_cast ne_of_gt hm
      push_cast
      field_simp
      ring
    · have hsm : ¬ 0 < s * npMean l := by
        intro hpos
        have hm2 : npMean l ≤ 0 := le_of_not_lt hm
        nlinarith
      rw [if_neg hsm, if_neg hm]
  · simp only [compute_statistics, hbe, Bool.false_eq_true, if_false]

/-- Witness for claim C10: doubling the pixel size on a one-blob list
doubles mean and std and leaves cv and count unchanged. -/
theorem compute_statistics_scaling_witness :
    (compute_statistics tIntZero (2 * 1) [bA]).mean
      = 2 * (compute_statistics tIntZero 1 [bA]).mean ∧
    (compute_statistics tIntZero (2 * 1) [bA]).std
      = ((2 : ℚ) : ℝ) * (compute_statistics tIntZero 1 [bA]).std ∧
    (compute_statistics tIntZero (2 * 1) [bA]).cv
      = (compute_statistics tIntZero 1 [bA]).cv ∧
    (compute_statistics tIntZero (2 * 1) [bA]).count
      = (compute_statistics tIntZero 1 [bA]).count :=
  compute_statistics_scaling tIntZero [bA] 1 2 (by simp) (by norm_num)

/-! ## The optimizer loop invariant -/

/-- The distance of the initial phantom candidate (`best_count = 0`). -/
lemma distTo_zero (t : ℕ) : distTo 0 t = t := by
  unfold distTo
  omega

/-- Truncation bound: `filter_blobs` never returns more than `max_blobs` blobs. -/
lemma length_filter_blobs_le (l : List Blob) (k : ℕ) :
    (filter_blobs l k).length ≤ k := by
  rw [filter_blobs, List.length_take, List.length_insertionSort]
  omega

/-- The midpoint stays within the (positive, ordered) bounds. -/
lemma midOf_bounds (s : OptState)
    (hle : s.min_threshold ≤ s.max_threshold) :
    s.min_threshold ≤ midOf s ∧ midOf s ≤ s.max_threshold := by
  unfold midOf
  omega

/-- One iteration preserves the loop invariant, whatever bounds the
iteration ends with: the new best-seen data is consistent with the
extended history. -/
lemma optInv_push (detectAt : ℤ → List Blob) (max_blobs target : ℕ)
    (s : OptState) (hinv : OptInv detectAt max_blobs target s)
    (hout : Outside s) (hmid1 : s.min_threshold ≤ midOf s)
    (hmid2 : midOf s ≤ s.max_threshold) (mn mx : ℤ) :
    OptInv detectAt max_blobs target
      ⟨(if distTo (filter_blobs (detectAt (midOf s)) max_blobs).length target
            < distTo s.best_count target
         then midOf s else s.best_threshold),
       (if distTo (filter_blobs (detectAt (midOf s)) max_blobs).length target
            < distTo s.best_count target
         then (filter_blobs (detectAt (midOf s)) max_blobs).length
         else s.best_count),
       (if distTo (filter_blobs (detectAt (midOf s)) max_blobs).length target
            < distTo s.best_count target
         then filter_blobs (detectAt (midOf s)) max_blobs else s.best_blobs),
       s.history ++
         [⟨midOf s, (filter_blobs (detectAt (midOf s)) max_blobs).length,
           distTo (filter_blobs (detectAt (midOf s)) max_blobs).length
             target⟩],
       mn, mx⟩ := by
  have hnodup : ((s.history ++
      [(⟨midOf s, (filter_blobs (detectAt (midOf s)) max_blobs).length,
        distTo (filter_blobs (detectAt (midOf s)) max_blobs).length
          target⟩ : HistEntry)]).map HistEntry.threshold).Nodup := by
    rw [List.map_append]
    refine List.nodup_append.mpr ⟨hinv.nodup, List.nodup_singleton _, ?_⟩
    intro a ha hb
    simp only [List.map_cons, List.map_nil, List.mem_singleton] at hb
    obtain ⟨e, he, rfl⟩ := List.mem_map.mp ha
    rcases hout e he with h | h <;> omega
  by_cases hupd : distTo (filter_blobs (detectAt (midOf s)) max_blobs).length
      target < distTo s.best_count target
  · simp only [if_pos hupd]
    refine ⟨hnodup, ?_, ?_, rfl, length_filter_blobs_le _ _, ?_⟩
    · intro e he
      rcases List.mem_append.mp he with h | h
      · exact le_of_lt (lt_of_lt_of_le hupd (hinv.bestLe e h))
      · simp only [List.mem_singleton] at h
        subst h
        exact le_refl _
    · exact le_of_lt (lt_of_lt_of_le hupd hinv.bestInit)
    · refine Or.inr ⟨s.history,
        ⟨midOf s, (filter_blobs (detectAt (midOf s)) max_blobs).length,
          distTo (filter_blobs (detectAt (midOf s)) max_blobs).length
            target⟩,
        [], rfl, rfl, rfl, rfl, ?_, rfl⟩
      intro e' he'
      exact lt_of_lt_of_le hupd (hinv.bestLe e' he')
  · simp only [if_neg hupd]
    have hge : distTo s.best_count target ≤
        distTo (filter_blobs (detectAt (midOf s)) max_blobs).length target :=
      le_of_not_lt hupd
    refine ⟨hnodup, ?_, hinv.bestInit, hinv.lenOk, hinv.lenLe, ?_⟩
    · intro e he
      rcases List.mem_append.mp he with h | h
      · exact hinv.bestLe e h
      · simp only [List.mem_singleton] at h
        subst h
        exact hge
    · rcases hinv.best with ⟨hbt, hbc, hbb, hall⟩ | ⟨l1, e, l2, hsplit, he1, he2, he3, hl1, hbb⟩
      · refine Or.inl ⟨hbt, hbc, hbb, ?_⟩
        intro e he
        rcases List.mem_append.mp he with h | h
        · exact hall e h
        · simp only [List.mem_singleton] at h
          subst h
          calc target = distTo 0 target := (distTo_zero target).symm
            _ = distTo s.best_count target := by rw [hbc]
            _ ≤ _ := hge
      · exact Or.inr ⟨l1, e, l2 ++
          [⟨midOf s, (filter_blobs (detectAt (midOf s)) max_blobs).length,
            distTo (filter_blobs (detectAt (midOf s)) max_blobs).length
              target⟩],
          by rw [hsplit]; simp, he1, he2, he3, hl1, hbb⟩

/-- One iteration of the loop preserves the invariant; and when the
iteration continues, the probed thresholds stay outside the narrowed
bounds, which remain positive and ordered. -/
lemma optStep_inv (detectAt : ℤ → List Blob) (max_blobs target : ℕ)
    (s : OptState) (hinv : OptInv detectAt max_blobs target s)
    (hout : Outside s) (hmin : 1 ≤ s.min_threshold)
    (hle : s.min_threshold ≤ s.max_threshold) :
    OptInv detectAt max_blobs target (optStep detectAt max_blobs target s).1 ∧
    ((optStep detectAt max_blobs target s).2 = false →
      Outside (optStep detectAt max_blobs target s).1 ∧
      1 ≤ (optStep detectAt max_blobs target s).1.min_threshold ∧
      (optStep detectAt max_blobs target s).1.min_threshold ≤
        (optStep detectAt max_blobs target s).1.max_threshold) := by
  obtain ⟨hmid1, hmid2⟩ := midOf_bounds s hle
  by_cases hex : (filter_blobs (detectAt (midOf s)) max_blobs).length = target
  · have hstep : optStep detectAt max_blobs target s =
        (⟨(if distTo (filter_blobs (detectAt (midOf s)) max_blobs).length
              target < distTo s.best_count target
            then midOf s else s.best_threshold),
          (if distTo (filter_blobs (detectAt (midOf s)) max_blobs).length
              target < distTo s.best_count target
            then (filter_blobs (detectAt (midOf s)) max_blobs).length
            else s.best_count),
          (if distTo (filter_blobs (detectAt (midOf s)) max_blobs).length
              target < distTo s.best_count target
            then filter_blobs (detectAt (midOf s)) max_blobs
            else s.best_blobs),
          s.history ++
            [⟨midOf s, (filter_blobs (detectAt (midOf s)) max_blobs).length,
              distTo (filter_blobs (detectAt (midOf s)) max_blobs).length
                target⟩],
          s.min_threshold, s.max_threshold⟩, true) := by
      simp only [optStep, if_pos hex]
    rw [hstep]
    exact ⟨optInv_push detectAt max_blobs target s hinv hout hmid1 hmid2 _ _,
      fun h => absurd h (by simp)⟩
  · by_cases hlt : (filter_blobs (detectAt (midOf s)) max_blobs).length < target
    · have hstep : optStep detectAt max_blobs target s =
          (⟨(if distTo (filter_blobs (detectAt (midOf s)) max_blobs).length
                target < distTo s.best_count target
              then midOf s else s.best_threshold),
            (if distTo (filter_blobs (detectAt (midOf s)) max_blobs).length
                target < distTo s.best_count target
              then (filter_blobs (detectAt (midOf s)) max_blobs).length
              else s.best_count),
            (if distTo (filter_blobs (detectAt (midOf s)) max_blobs).length
                target < distTo s.best_count target
              then filter_blobs (detectAt (midOf s)) max_blobs
              else s.best_blobs),
            s.history ++
              [⟨midOf s,
                (filter_blobs (detectAt (midOf s)) max_blobs).length,
                distTo (filter_blobs (detectAt (midOf s)) max_blobs).length
                  target⟩],
            s.min_threshold, midOf s - 1⟩,
           decide (midOf s - 1 < s.min_threshold)) := by
        simp only [optStep, if_neg hex, if_pos hlt]
      rw [hstep]
      dsimp only
      refine ⟨optInv_push detectAt max_blobs target s hinv hout hmid1 hmid2
        _ _, ?_⟩
      intro hflag
      have hgap : ¬ midOf s - 1 < s.min_threshold := by
        simpa using hflag
      refine ⟨?_, hmin, by omega⟩
      intro e he
      dsimp only at he ⊢
      rcases List.mem_append.mp he with h | h
      · rcases hout e h with h' | h' <;> [exact Or.inl h'; exact Or.inr (by omega)]
      · simp only [List.mem_singleton] at h
        subst h
        dsimp only
        exact Or.inr (by omega)
    · have hstep : optStep detectAt max_blobs target s =
          (⟨(if distTo (filter_blobs (detectAt (midOf s)) max_blobs).length
                target < distTo s.best_count target
              then midOf s else s.best_threshold),
            (if distTo (filter_blobs (detectAt (midOf s)) max_blobs).length
                target < distTo s.best_count target
              then (filter_blobs (detectAt (midOf s)) max_blobs).length
              else s.best_count),
            (if distTo (filter_blobs (detectAt (midOf s)) max_blobs).length
                target < distTo s.best_count target
              then filter_blobs (detectAt (midOf s)) max_blobs
              else s.best_blobs),
            s.history ++
              [⟨midOf s,
                (filter_blobs (detectAt (midOf s)) max_blobs).length,
                distTo (filter_blobs (detectAt (midOf s)) max_blobs).length
                  target⟩],
            midOf s + 1, s.max_threshold⟩,
           decide (s.max_threshold < midOf s + 1)) := by
        simp only [optStep, if_neg hex, if_neg hlt]
      rw [hstep]
      dsimp only
      refine ⟨optInv_push detectAt max_blobs target s hinv hout hmid1 hmid2
        _ _, ?_⟩
      intro hflag
      have hgap : ¬ s.max_threshold < midOf s + 1 := by
        simpa using hflag
      refine ⟨?_, by omega, by omega⟩
      intro e he
      dsimp only at he ⊢
      rcases List.mem_append.mp he with h | h
      · rcases hout e h with h' | h' <;> [exact Or.inl (by omega); exact Or.inr h']
      · simp only [List.mem_singleton] at h
        subst h
        dsimp only
        exact Or.inl (by omega)

/-- The loop preserves the invariant down to the state it returns. -/
lemma optLoop_inv (detectAt : ℤ → List Blob) (max_blobs target : ℕ) :
    ∀ (fuel : ℕ) (s : OptState), OptInv detectAt max_blobs target s →
      Outside s → 1 ≤ s.min_threshold →
      s.min_threshold ≤ s.max_threshold →
      OptInv detectAt max_blobs target
        (optLoop detectAt max_blobs target fuel s) := by
  intro fuel
  induction fuel with
  | zero =>
    intro s hinv _ _ _
    exact hinv
  | succ f ih =>
    intro s hinv hout h1 hle
    obtain ⟨hinv2, hcont⟩ :=
      optStep_inv detectAt max_blobs target s hinv hout h1 hle
    cases hflag : (optStep detectAt max_blobs target s).2 with
    | true =>
      have heq : optLoop detectAt max_blobs target (f + 1) s =
          (optStep detectAt max_blobs target s).1 := by
        rw [optLoop]
        simp [hflag]
      rw [heq]
      exact hinv2
    | false =>
      have heq : optLoop detectAt max_blobs target (f + 1) s =
          optLoop detectAt max_blobs target f
            (optStep detectAt max_blobs target s).1 := by
        rw [optLoop]
        simp [hflag]
      obtain ⟨hout2, h12, hle2⟩ := hcont hflag
      rw [heq]
      exact ih _ hinv2 hout2 h12 hle2

/-- One iteration appends exactly one record to the history. -/
lemma optStep_history (detectAt : ℤ → List Blob) (max_blobs target : ℕ)
    (s : OptState) :
    (optStep detectAt max_blobs target s).1.history =
      s.history ++
        [⟨midOf s, (filter_blobs (detectAt (midOf s)) max_blobs).length,
          distTo (filter_blobs (detectAt (midOf s)) max_blobs).length
            target⟩] := by
  by_cases hex : (filter_blobs (detectAt (midOf s)) max_blobs).length = target
  · simp only [optStep, if_pos hex]
  · by_cases hlt : (filter_blobs (detectAt (midOf s)) max_blobs).length <
        target
    · simp only [optStep, if_neg hex, if_pos hlt]
    · simp only [optStep, if_neg hex, if_neg hlt]

/-- The loop only ever appends to the history. -/
lemma optLoop_history_extends (detectAt : ℤ → List Blob)
    (max_blobs target : ℕ) :
    ∀ (fuel : ℕ) (s : OptState), ∃ tl,
      (optLoop detectAt max_blobs target fuel s).history =
        s.history ++ tl := by
  intro fuel
  induction fuel with
  | zero =>
    intro s
    exact ⟨[], (List.append_nil _).symm⟩
  | succ f ih =>
    intro s
    cases hflag : (optStep detectAt max_blobs target s).2 with
    | true =>
      have heq : optLoop detectAt max_blobs target (f + 1) s =
          (optStep detectAt max_blobs target s).1 := by
        rw [optLoop]
        simp [hflag]
      rw [heq, optStep_history]
      exact ⟨_, rfl⟩
    | false =>
      have heq : optLoop detectAt max_blobs target (f + 1) s =
          optLoop detectAt max_blobs target f
            (optStep detectAt max_blobs target s).1 := by
        rw [optLoop]
        simp [hflag]
      obtain ⟨tl, htl⟩ := ih (optStep detectAt max_blobs target s).1
      rw [heq, htl, optStep_history, List.append_assoc]
      exact ⟨_, rfl⟩

/-- Each loop iteration adds one history record, so the history grows
by at most the remaining iteration budget. -/
lemma optLoop_history_length (detectAt : ℤ → List Blob)
    (max_blobs target : ℕ) :
    ∀ (fuel : ℕ) (s : OptState),
      (optLoop detectAt max_blobs target fuel s).history.length ≤
        s.history.length + fuel := by
  intro fuel
  induction fuel with
  | zero =>
    intro s
    simp [optLoop]
  | succ f ih =>
    intro s
    cases hflag : (optStep detectAt max_blobs target s).2 with
    | true =>
      have heq : optLoop detectAt max_blobs target (f + 1) s =
          (optStep detectAt max_blobs target s).1 := by
        rw [optLoop]
        simp [hflag]
      rw [heq, optStep_history]
      simp only [List.length_append, List.length_cons, List.length_nil]
      omega
    | false =>
      have heq : optLoop detectAt max_blobs target (f + 1) s =
          optLoop detectAt max_blobs target f
            (optStep detectAt max_blobs target s).1 := by
        rw [optLoop]
        simp [hflag]
      have hlen := ih (optStep detectAt max_blobs target s).1
      rw [optStep_history] at hlen
      simp only [List.length_append, List.length_cons, List.length_nil]
        at hlen
      rw [heq]
      omega

/-- The invariant holds at the initial state. -/
lemma optInit_inv (detectAt : ℤ → List Blob) (max_blobs target : ℕ) :
    OptInv detectAt max_blobs target optInit := by
  refine ⟨?_, ?_, ?_, rfl, Nat.zero_le _, Or.inl ⟨rfl, rfl, rfl, ?_⟩⟩
  · simp [optInit]
  · intro e he
    simp [optInit] at he
  · show distTo 0 target ≤ target
    rw [distTo_zero]
  · intro e he
    simp [optInit] at he

/-- The invariant holds at the final state of the search. -/
lemma finalState_inv (detectAt : ℤ → List Blob) (max_blobs target : ℕ) :
    OptInv detectAt max_blobs target
      (finalState detectAt max_blobs target) :=
  optLoop_inv detectAt max_blobs target MAX_ITERATIONS optInit
    (optInit_inv detectAt max_blobs target)
    (fun e he => by simp [optInit] at he) (by decide) (by decide)

/-- The first history record of every run probes threshold
`(1 + 255) // 2 = 128`. -/
lemma finalState_first_entry (detectAt : ℤ → List Blob)
    (max_blobs target : ℕ) :
    ∃ tl, (finalState detectAt max_blobs target).history =
      (⟨128, (filter_blobs (detectAt 128) max_blobs).length,
        distTo (filter_blobs (detectAt 128) max_blobs).length target⟩ :
          HistEntry) :: tl := by
  have h128 : midOf optInit = 128 := by decide
  unfold finalState MAX_ITERATIONS
  cases hflag : (optStep detectAt max_blobs target optInit).2 with
  | true =>
    have heq : optLoop detectAt max_blobs target 12 optInit =
        (optStep detectAt max_blobs target optInit).1 := by
      rw [show (12 : ℕ) = 11 + 1 from rfl, optLoop]
      simp [hflag]
    rw [heq, optStep_history, h128]
    exact ⟨[], rfl⟩
  | false =>
    have heq : optLoop detectAt max_blobs target 12 optInit =
        optLoop detectAt max_blobs target 11
          (optStep detectAt max_blobs target optInit).1 := by
      rw [show (12 : ℕ) = 11 + 1 from rfl, optLoop]
      simp [hflag]
    obtain ⟨tl, htl⟩ := optLoop_history_extends detectAt max_blobs target 11
      (optStep detectAt max_blobs target optInit).1
    rw [heq, htl, optStep_history, h128]
    exact ⟨tl, rfl⟩

/-- In a history whose thresholds are pairwise distinct, filtering for
the threshold of a given entry leaves exactly that entry. -/
lemma filter_threshold_singleton {l1 l2 : List HistEntry} {e : HistEntry}
    (hn : ((l1 ++ e :: l2).map HistEntry.threshold).Nodup) :
    (l1 ++ e :: l2).filter (fun x => x.threshold == e.threshold) = [e] := by
  rw [List.map_append, List.map_cons] at hn
  obtain ⟨h1, h2, hdisj⟩ := List.nodup_append.mp hn
  rw [List.filter_append, List.filter_cons]
  have hl1 : l1.filter (fun x => x.threshold == e.threshold) = [] := by
    rw [List.filter_eq_nil_iff]
    intro a ha
    simp only [beq_iff_eq]
    intro heq
    exact hdisj (List.mem_map_of_mem _ ha)
      (by rw [heq]; exact List.mem_cons_self _ _)
  have hl2 : l2.filter (fun x => x.threshold == e.threshold) = [] := by
    rw [List.filter_eq_nil_iff]
    intro a ha
    simp only [beq_iff_eq]
    intro heq
    have hmem : e.threshold ∈ l2.map HistEntry.threshold := by
      rw [← heq]
      exact List.mem_map_of_mem _ ha
    exact (List.nodup_cons.mp h2).1 hmem
  rw [hl1, hl2]
  simp

/-- Claim C1 (amended): the returned threshold always appears in the
history (the first iteration always probes 128).  Whenever some
iteration came strictly closer to the target than the initial phantom
candidate's distance `|0 − target|`, the returned `blob_count` equals
the count in the last history entry whose threshold equals the
returned threshold.  (Without that proviso the claim is false: the
returned candidate can be the never-evaluated initial `(128, 0)`, see
the counterexample.) -/
theorem optimize_threshold_history_match (detectAt : ℤ → List Blob)
    (max_blobs target : ℕ) :
    (∃ e ∈ (optimize_threshold detectAt max_blobs target).history,
        e.threshold =
          (optimize_threshold detectAt max_blobs target).threshold) ∧
    ((∃ e ∈ (optimize_threshold detectAt max_blobs target).history,
        e.distance < target) →
      lastMatchingCount (optimize_threshold detectAt max_blobs target) =
        some (optimize_threshold detectAt max_blobs target).blob_count) := by
  have hinv := finalState_inv detectAt max_blobs target
  have hhist : (optimize_threshold detectAt max_blobs target).history =
      (finalState detectAt max_blobs target).history := rfl
  have hth : (optimize_threshold detectAt max_blobs target).threshold =
      (finalState detectAt max_blobs target).best_threshold := rfl
  have hbc : (optimize_threshold detectAt max_blobs target).blob_count =
      (finalState detectAt max_blobs target).best_count := rfl
  constructor
  · rcases hinv.best with ⟨hbt, _, _, _⟩ |
      ⟨l1, e, l2, hsplit, he1, _, _, _, _⟩
    · obtain ⟨tl, htl⟩ := finalState_first_entry detectAt max_blobs target
      refine ⟨⟨128, (filter_blobs (detectAt 128) max_blobs).length,
        distTo (filter_blobs (detectAt 128) max_blobs).length target⟩,
        ?_, ?_⟩
      · rw [hhist, htl]
        exact List.mem_cons_self _ _
      · rw [hth, hbt]
    · refine ⟨e, ?_, ?_⟩
      · rw [hhist, hsplit]
        exact List.mem_append_right _ (List.mem_cons_self _ _)
      · rw [hth]
        exact he1
  · rintro ⟨e0, he0m, he0d⟩
    rcases hinv.best with ⟨_, hbc0, _, hall⟩ |
      ⟨l1, e, l2, hsplit, he1, he2, _, _, _⟩
    · exfalso
      have hge := hall e0 (by rw [← hhist]; exact he0m)
      omega
    · rw [lastMatchingCount, hhist, hbc, hth, hsplit, ← he1,
        filter_threshold_singleton (by rw [← hsplit]; exact hinv.nodup)]
      simp [he2]

/-- Counterexample to claim C1 as stated: with a pipeline that always
reports three blobs and `target_count = 1`, no iteration beats the
initial distance, so the run returns `blob_count = 0` while the last
(only) history entry at the returned threshold 128 recorded count 3. -/
theorem optimize_threshold_history_match_cex :
    lastMatchingCount (optimize_threshold threeBlobDetect 8 1) = some 3 ∧
    (optimize_threshold threeBlobDetect 8 1).blob_count = 0 := by
  decide

/-- Witness for amended claim C1 at a run whose best was updated. -/
theorem optimize_threshold_history_match_witness :
    (∃ e ∈ (optimize_threshold oneBlobDetect 8 1).history,
        e.threshold = (optimize_threshold oneBlobDetect 8 1).threshold) ∧
    lastMatchingCount (optimize_threshold oneBlobDetect 8 1) =
      some (optimize_threshold oneBlobDetect 8 1).blob_count :=
  ⟨(optimize_threshold_history_match oneBlobDetect 8 1).1,
   (optimize_threshold_history_match oneBlobDetect 8 1).2 (by decide)⟩

/-- Claim C3 (amended): the search is a total function (the model
returns normally on every input), and when `target ≥ 1` and no
iteration's count hits the target, it returns `exact_match = false`
together with the best-seen candidate — either the initial candidate
`(128, 0, [])` when no iteration got strictly closer to the target
than `|0 − target|`, or the first recorded iteration achieving the
minimal distance, with its threshold, count and (filtered) blob list.
(The unamended claim is false for `target = 0`: `exact_match` can be
`true` without any exact hit, see the counterexample.) -/
theorem optimize_threshold_nonconvergence (detectAt : ℤ → List Blob)
    (max_blobs target : ℕ) (ht : 0 < target)
    (hmiss : ∀ e ∈ (optimize_threshold detectAt max_blobs target).history,
      e.count ≠ target) :
    (optimize_threshold detectAt max_blobs target).exact_match = false ∧
    (((optimize_threshold detectAt max_blobs target).threshold = 128 ∧
      (optimize_threshold detectAt max_blobs target).blob_count = 0 ∧
      (optimize_threshold detectAt max_blobs target).blobs = [] ∧
      ∀ e ∈ (optimize_threshold detectAt max_blobs target).history,
        target ≤ e.distance) ∨
     (∃ l1 e l2,
        (optimize_threshold detectAt max_blobs target).history =
          l1 ++ e :: l2 ∧
        e.threshold =
          (optimize_threshold detectAt max_blobs target).threshold ∧
        e.count = (optimize_threshold detectAt max_blobs target).blob_count ∧
        (optimize_threshold detectAt max_blobs target).blobs =
          filter_blobs
            (detectAt (optimize_threshold detectAt max_blobs target).threshold)
            max_blobs ∧
        (∀ e' ∈ (optimize_threshold detectAt max_blobs target).history,
          e.distance ≤ e'.distance) ∧
        ∀ e' ∈ l1, e.distance < e'.distance)) := by
  have hinv := finalState_inv detectAt max_blobs target
  have hhist : (optimize_threshold detectAt max_blobs target).history =
      (finalState detectAt max_blobs target).history := rfl
  have hth : (optimize_threshold detectAt max_blobs target).threshold =
      (finalState detectAt max_blobs target).best_threshold := rfl
  have hbc : (optimize_threshold detectAt max_blobs target).blob_count =
      (finalState detectAt max_blobs target).best_count := rfl
  have hbb : (optimize_threshold detectAt max_blobs target).blobs =
      (finalState detectAt max_blobs target).best_blobs := rfl
  have hem : (optimize_threshold detectAt max_blobs target).exact_match =
      ((finalState detectAt max_blobs target).best_count == target) := rfl
  have hne : (finalState detectAt max_blobs target).best_count ≠ target := by
    rcases hinv.best with ⟨_, hbc0, _, _⟩ |
      ⟨l1, e, l2, hsplit, _, he2, _, _, _⟩
    · omega
    · rw [← he2]
      refine hmiss e ?_
      rw [hhist, hsplit]
      exact List.mem_append_right _ (List.mem_cons_self _ _)
  refine ⟨by rw [hem]; exact beq_eq_false_iff_ne.mpr hne, ?_⟩
  rcases hinv.best with ⟨hbt, hbc0, hbb0, hall⟩ |
    ⟨l1, e, l2, hsplit, he1, he2, he3, hl1, hbbF⟩
  · refine Or.inl ⟨by rw [hth, hbt], by rw [hbc, hbc0], by rw [hbb, hbb0], ?_⟩
    intro e he
    exact hall e (by rw [← hhist]; exact he)
  · refine Or.inr ⟨l1, e, l2, by rw [hhist, hsplit], by rw [hth]; exact he1,
      by rw [hbc]; exact he2, by rw [hbb, hth]; exact hbbF, ?_, ?_⟩
    · intro e' he'
      rw [he3]
      exact hinv.bestLe e' (by rw [← hhist]; exact he')
    · intro e' he'
      rw [he3]
      exact hl1 e' he'

/-- Counterexample to claim C3 as stated: with a pipeline that always
reports three blobs and `target_count = 0`, no iteration ever hits the
target, yet `exact_match` is `true` (the phantom initial candidate's
count 0 equals the target). -/
theorem optimize_threshold_nonconvergence_cex :
    (optimize_threshold threeBlobDetect 8 0).exact_match = true ∧
    ∀ e ∈ (optimize_threshold threeBlobDetect 8 0).history, e.count ≠ 0 := by
  decide

/-- Witness for amended claim C3 at a concrete non-converging run. -/
theorem optimize_threshold_nonconvergence_witness :
    (optimize_threshold threeBlobDetect 8 1).exact_match = false ∧
    (((optimize_threshold threeBlobDetect 8 1).threshold = 128 ∧
      (optimize_threshold threeBlobDetect 8 1).blob_count = 0 ∧
      (optimize_threshold threeBlobDetect 8 1).blobs = [] ∧
      ∀ e ∈ (optimize_threshold threeBlobDetect 8 1).history,
        1 ≤ e.distance) ∨
     (∃ l1 e l2,
        (optimize_threshold threeBlobDetect 8 1).history = l1 ++ e :: l2 ∧
        e.threshold = (optimize_threshold threeBlobDetect 8 1).threshold ∧
        e.count = (optimize_threshold threeBlobDetect 8 1).blob_count ∧
        (optimize_threshold threeBlobDetect 8 1).blobs =
          filter_blobs
            (threeBlobDetect (optimize_threshold threeBlobDetect 8 1).threshold)
            8 ∧
        (∀ e' ∈ (optimize_threshold threeBlobDetect 8 1).history,
          e.distance ≤ e'.distance) ∧
        ∀ e' ∈ l1, e.distance < e'.distance)) :=
  optimize_threshold_nonconvergence threeBlobDetect 8 1 (by decide) (by decide)

/-- Claim C8: the optimizer performs at most `MAX_ITERATIONS = 12`
pipeline evaluations per call, whatever the pipeline reports — one
evaluation per history record, so the history has at most 12 entries. -/
theorem optimize_threshold_bounded (detectAt : ℤ → List Blob)
    (max_blobs target : ℕ) :
    (optimize_threshold detectAt max_blobs target).history.length ≤
      MAX_ITERATIONS := by
  have h := optLoop_history_length detectAt max_blobs target
    MAX_ITERATIONS optInit
  simpa [optInit] using h

/-- Claim C9: the returned `blob_count` is the length of the returned
blob list, which never exceeds `max_blobs`: the best-seen count and
blob list start as `0` and `[]` and are only updated together from an
iteration whose list was truncated by `filter_blobs`. -/
theorem optimize_threshold_count_len (detectAt : ℤ → List Blob)
    (max_blobs target : ℕ) :
    (optimize_threshold detectAt max_blobs target).blob_count =
      (optimize_threshold detectAt max_blobs target).blobs.length ∧
    (optimize_threshold detectAt max_blobs target).blobs.length ≤
      max_blobs :=
  ⟨(finalState_inv detectAt max_blobs target).lenOk,
   (finalState_inv detectAt max_blobs target).lenLe⟩

end SpotAnalyzer
